/-
  Verification of the Hyperdrip lead drip-campaign scheduler.

  Shallow embedding of the core logic:
  * the worker's per-entry processing (`processMessage` in the worker module),
  * the scheduler's day search (`findNextAvailableDay` in the leads route),
  * the queue janitor (`cleanupOldQueues` in the worker module),
  * the admission endpoint (`POST` in the leads route).

  Modelling conventions:
  * JS numbers that hold integers (counters, message numbers) are `Int`.
  * Timestamps are `Int` milliseconds; calendar days are `Int` day numbers
    (days since 1970-01-01 UTC), so 2025-01-22 is day 20110.
  * A queue name `drip-messages-YYYY-MM-DD` (optionally `test-` prefixed) is
    a pair `(isTest : Bool, day : Int)`: the date component determines the
    name bijectively, so the pair determines the name.
  * Database / queue I/O is modelled by explicit effect traces; the outcome
    of each fallible external call is an input to the embedded function.
-/
import Mathlib

set_option linter.unusedVariables false

namespace Hyperdrip

/-- Lead lifecycle status, from the Prisma enum `LeadStatus`. -/
inductive LeadStatus where
  | ACTIVE
  | COMPLETED
  | FAILED
deriving DecidableEq, Repr

/-- A row of the `leads` table (Prisma model `Lead`). -/
structure Lead where
  id : String
  name : String
  email : String
  phone : String
  notes : Option String
  maxMessages : Int
  messageCount : Int
  lastSentAt : Option Int
  nextScheduledFor : Option Int
  status : LeadStatus
  createdAt : Int
deriving DecidableEq, Repr

/-- A queue entry payload (`QueueMessage` in `lib/queue.ts`).
`scheduledDate` is the day number of the `YYYY-MM-DD` string. -/
structure QueueMessage where
  leadId : String
  email : String
  messageNumber : Int
  scheduledDate : Int
deriving DecidableEq, Repr

/-- The lead update performed by the worker on a successful advance
(`tx.lead.update` in `processMessage`): increment the counter, stamp
`lastSentAt := now`, and either complete the lead or point it at tomorrow.
The code computes `isCompleted = newMessageCount >= lead.maxMessages`. -/
def advanceLead (lead : Lead) (now : Int) : Lead :=
  let newMessageCount := lead.messageCount + 1
  if newMessageCount ≥ lead.maxMessages then
    { lead with
      messageCount := newMessageCount
      lastSentAt := some now
      nextScheduledFor := none
      status := LeadStatus.COMPLETED }
  else
    { lead with
      messageCount := newMessageCount
      lastSentAt := some now
      nextScheduledFor := some (now + 86400000)
      status := LeadStatus.ACTIVE }

/-- The state transformation of the worker's `processMessage` on the lead row:
advance exactly when `lead.messageCount === messageNumber - 1`, otherwise
leave the row untouched. -/
def processLead (lead : Lead) (msg : QueueMessage) (now : Int) : Lead :=
  if lead.messageCount = msg.messageNumber - 1 then advanceLead lead now
  else lead

/-- One externally visible step of `processMessage`, in program order:
the send effect (the log line standing in for the transport), the
`tx.lead.update` statement, the `archiveMessage` HTTP call to the queue
service, and the commit of the surrounding `prisma.$transaction`. -/
inductive WorkerEvent where
  | send (messageNumber : Int)
  | dbUpdate (newLead : Lead)
  | archive
  | txCommit
deriving DecidableEq, Repr

/-- The effect trace of `processMessage` on the success path (no call
throws).  The body runs inside `prisma.$transaction(async (tx) => ...)`;
the transaction commits when the callback returns, so `txCommit` is the
last event.  `archiveMessage` is awaited inside the callback, hence the
`archive` event precedes `txCommit` in every branch. -/
def processMessageEvents (lead? : Option Lead) (msg : QueueMessage)
    (now : Int) : List WorkerEvent :=
  (match lead? with
   | none => [WorkerEvent.archive]
   | some lead =>
     if lead.messageCount = msg.messageNumber - 1 then
       [WorkerEvent.send msg.messageNumber,
        WorkerEvent.dbUpdate (advanceLead lead now),
        WorkerEvent.archive]
     else
       [WorkerEvent.archive]) ++ [WorkerEvent.txCommit]

/-- Concrete lead used in closed instances: freshly admitted, no sends yet. -/
def sampleLead : Lead :=
  { id := "lead-1"
    name := "Ada"
    email := "ada@example.com"
    phone := "5551234567"
    notes := none
    maxMessages := 5
    messageCount := 0
    lastSentAt := none
    nextScheduledFor := none
    status := LeadStatus.ACTIVE
    createdAt := 0 }

/-- Concrete queue entry: first message of `sampleLead`. -/
def sampleMsg : QueueMessage :=
  { leadId := "lead-1"
    email := "ada@example.com"
    messageNumber := 1
    scheduledDate := 20110 }

/-- A whole worker run over a list of queue entries, each paired with the
wall-clock time at which its `processMessage` transaction runs: the lead row
after folding `processLead` over the sequence. -/
def runEntries (lead : Lead) (entries : List (QueueMessage × Int)) : Lead :=
  entries.foldl (fun l p => processLead l p.1 p.2) lead

/-- The scheduler's bounded day scan (`findNextAvailableDay` in the leads
route), written with the loop counter as explicit fuel: at each day, if
`used(day) < DAILY_MAX` return it, else move to the next day; when the fuel
runs out, return the current (never examined) day. -/
def findNextAvailableDayAux (used : Int → Nat) (dailyMax : Nat) :
    Nat → Int → Int
  | 0, current => current
  | fuel + 1, current =>
    if used current < dailyMax then current
    else findNextAvailableDayAux used dailyMax fuel (current + 1)

/-- `findNextAvailableDay(startDate)`: scan up to 30 days starting at the
start date.  `used d` is the capacity oracle: the store count of leads whose
`lastSentAt` falls inside day `d` (the `prisma.lead.count` call). -/
def findNextAvailableDay (used : Int → Nat) (dailyMax : Nat)
    (startDate : Int) : Int :=
  findNextAvailableDayAux used dailyMax 30 startDate

/-- The day search described in words: the first day `D ≥ startDate` within
the 30-day horizon with `used D < dailyMax`; when every day of the horizon
is full, the day immediately after the horizon, `startDate + 30`. -/
def specFirstAvailableDay (used : Int → Nat) (dailyMax : Nat)
    (startDate : Int) : Int :=
  match (List.range 30).find?
      (fun (i : Nat) => decide (used (startDate + (i : Int)) < dailyMax)) with
  | some i => startDate + (i : Int)
  | none => startDate + 30

/-- The janitor's drop list (`cleanupOldQueues` in the worker module).  The
loop `for (let i = 1; i < 7; i++)` visits `i = 1..6` and for each pushes the
plain and the `test-` prefixed day-queue name for the date `i` days ago.  A
queue name is modelled as `(isTest, day)`. -/
def cleanupOldQueues (today : Int) : List (Bool × Int) :=
  ((List.range' 1 6).map
    (fun (i : Nat) =>
      [(false, today - (i : Int)), (true, today - (i : Int))])).flatten

/-- `startsWith` on character lists (helper for the JS `String.includes`). -/
def chStarts : List Char → List Char → Bool
  | [], _ => true
  | _ :: _, [] => false
  | p :: ps, c :: cs => p == c && chStarts ps cs

/-- Substring occurrence on character lists: some suffix starts with `pat`. -/
def chHas (pat : List Char) : List Char → Bool
  | [] => chStarts pat []
  | c :: cs => chStarts pat (c :: cs) || chHas pat cs

/-- JS `s.includes(pat)`. -/
def jsIncludes (s pat : String) : Bool := chHas pat.toList s.toList

/-- JS `s.toLocaleLowerCase()` restricted to its ASCII behaviour. -/
def jsToLower (s : String) : String := String.mk (s.toList.map Char.toLower)

/-- The easter-egg guard in `POST`:
`validatedData.notes?.toLocaleLowerCase().includes("coffee")`; an absent
`notes` short-circuits to a falsy value. -/
def hasCoffee (notes : Option String) : Bool :=
  match notes with
  | none => false
  | some s => jsIncludes (jsToLower s) "coffee"

/-- A request body that passed the zod `leadSchema`: exactly the fields the
schema declares (zod strips unknown keys, so no other field of the request
body reaches the handler). -/
structure LeadInput where
  name : String
  email : String
  phone : String
  notes : Option String
deriving DecidableEq, Repr

/-- The row written by `prisma.lead.create` in `POST`: the validated fields
plus the hard-coded drip fields `maxMessages: 5`, `messageCount: 0`,
`status: "ACTIVE"`; the nullable timestamps start at their DB default null,
and `createdAt` defaults to the current time. -/
def mkNewLead (input : LeadInput) (id : String) (nowMs : Int) : Lead :=
  { id := id
    name := input.name
    email := input.email
    phone := input.phone
    notes := input.notes
    maxMessages := 5
    messageCount := 0
    lastSentAt := none
    nextScheduledFor := none
    status := LeadStatus.ACTIVE
    createdAt := nowMs }

/-- The lead fields echoed in the 201 response body of `POST`. -/
structure LeadData where
  id : String
  name : String
  email : String
  phone : String
  notes : Option String
  maxMessages : Int
  status : LeadStatus
  createdAt : Int
deriving DecidableEq, Repr

/-- A `NextResponse.json` result: HTTP status plus the JSON body fields the
route ever sets. -/
structure HttpResponse where
  status : Nat
  success : Bool
  message : String
  data : Option LeadData
deriving DecidableEq, Repr

/-- `handleZodError`: 400 with the fixed failure message. -/
def handleZodError (e : String) : HttpResponse :=
  { status := 400, success := false, message := "Validation failed", data := none }

/-- `handleTeapot`: 418 echoing the thrown message. -/
def teapotResponse : HttpResponse :=
  { status := 418, success := false
    message := "I\x27m a teapot. No coffee for you!", data := none }

/-- `handleDBError`: 422, with the message picked by substring tests on the
error text exactly as in the route (the `email` test runs first). -/
def handleDBError (e : String) : HttpResponse :=
  let message :=
    if jsIncludes e "email" then
      if jsIncludes e "Unique constraint" then "The email address is already in use."
      else "There was an error saving this data"
    else if jsIncludes e "phone" then
      if jsIncludes e "Unique constraint" then "The phone number is already in use"
      else "There was an error saving this data"
    else "There was an error saving this data"
  { status := 422, success := false, message := message, data := none }

/-- The lead fields of the 201 body. -/
def leadResponseData (lead : Lead) : LeadData :=
  { id := lead.id
    name := lead.name
    email := lead.email
    phone := lead.phone
    notes := lead.notes
    maxMessages := lead.maxMessages
    status := lead.status
    createdAt := lead.createdAt }

/-- The 201 success response of `POST`. -/
def successResponse (lead : Lead) : HttpResponse :=
  { status := 201, success := true
    message := "Lead submitted successfully"
    data := some (leadResponseData lead) }

/-- Externally visible effects of the admission path, in program order. -/
inductive AdmissionEffect where
  | dbCreate
  | queueCreate (queue : Bool × Int)
  | enqueue (queue : Bool × Int) (msg : QueueMessage)
  | leadUpdate (status : LeadStatus) (nextScheduledFor : Option Int)
deriving DecidableEq, Repr

/-- The effect list of a fully successful `scheduleLeadMessages lead` run:
for `messageNumber = 1 .. (lead.maxMessages || 5)`, the preferred day is
`today + (messageNumber - 1)`, the assigned day is the day scan from there,
and the route ensures that day-queue and enqueues the payload; after the
loop the lead row is patched to `status: ACTIVE`,
`nextScheduledFor: today`. -/
def scheduleEffectsFull (lead : Lead) (isTest : Bool) (used : Int → Nat)
    (dailyMax : Nat) (today : Int) : List AdmissionEffect :=
  let n := if lead.maxMessages = 0 then (5 : Int) else lead.maxMessages
  ((List.range n.toNat).map (fun k =>
    let availableDate := findNextAvailableDay used dailyMax (today + (k : Int))
    [AdmissionEffect.queueCreate (isTest, availableDate),
     AdmissionEffect.enqueue (isTest, availableDate)
       { leadId := lead.id
         email := lead.email
         messageNumber := (k : Int) + 1
         scheduledDate := availableDate }])).flatten
    ++ [AdmissionEffect.leadUpdate LeadStatus.ACTIVE (some today)]

/-- The environment of one `POST` invocation: the outcome of each external
call the handler makes, so the handler itself is a pure function of it.
`scheduleFailsAt = some k` means the `k`-th effect of the scheduling run
(0-based, counting queue creates, enqueues and the final lead patch) throws
a queue/store error; effects before it were already issued. -/
structure AdmissionEnv where
  body : Except String LeadInput
  isTest : Bool
  createError : Option String
  newId : String
  nowMs : Int
  today : Int
  used : Int → Nat
  dailyMax : Nat
  scheduleFailsAt : Option Nat

/-- The `POST` handler of the leads route: parse/validate, coffee guard,
create the row (hard-coded drip fields), then try to schedule — a scheduling
failure is caught, logged and swallowed, and the 201 response with the
created lead is returned regardless. -/
def POSTrun (env : AdmissionEnv) : HttpResponse × List AdmissionEffect :=
  match env.body with
  | Except.error e => (handleZodError e, [])
  | Except.ok input =>
    if hasCoffee input.notes then (teapotResponse, [])
    else
      match env.createError with
      | some e => (handleDBError e, [AdmissionEffect.dbCreate])
      | none =>
        let lead := mkNewLead input env.newId env.nowMs
        let full := scheduleEffectsFull lead env.isTest env.used env.dailyMax env.today
        let effects :=
          match env.scheduleFailsAt with
          | none => full
          | some k => full.take k
        (successResponse lead, AdmissionEffect.dbCreate :: effects)

/-- Concrete validated input for closed instances. -/
def sampleInput : LeadInput :=
  { name := "Ada"
    email := "ada@example.com"
    phone := "5551234567"
    notes := none }

/- ------------------------------------------------------------------ -/
/- Helper lemmas                                                       -/
/- ------------------------------------------------------------------ -/

theorem advanceLead_messageCount (lead : Lead) (now : Int) :
    (advanceLead lead now).messageCount = lead.messageCount + 1 := by
  simp only [advanceLead]
  split <;> rfl

theorem processLead_of_match (lead : Lead) (msg : QueueMessage) (now : Int)
    (h : lead.messageCount = msg.messageNumber - 1) :
    processLead lead msg now = advanceLead lead now := by
  unfold processLead
  rw [if_pos h]

theorem processLead_of_mismatch (lead : Lead) (msg : QueueMessage) (now : Int)
    (h : lead.messageCount ≠ msg.messageNumber - 1) :
    processLead lead msg now = lead := by
  unfold processLead
  rw [if_neg h]

theorem processLead_maxMessages (lead : Lead) (msg : QueueMessage) (now : Int) :
    (processLead lead msg now).maxMessages = lead.maxMessages := by
  simp only [processLead, advanceLead]
  split
  · split <;> rfl
  · rfl

theorem processLead_count_mono (lead : Lead) (msg : QueueMessage) (now : Int) :
    lead.messageCount ≤ (processLead lead msg now).messageCount := by
  unfold processLead
  split
  · rw [advanceLead_messageCount]; omega
  · exact le_refl _

theorem processLead_count_cap (lead : Lead) (msg : QueueMessage) (now : Int)
    (M : Int) (hc : lead.messageCount ≤ M) (hm : msg.messageNumber ≤ M) :
    (processLead lead msg now).messageCount ≤ M := by
  unfold processLead
  split
  · rw [advanceLead_messageCount]; omega
  · exact hc

theorem runEntries_nil (lead : Lead) : runEntries lead [] = lead := rfl

theorem runEntries_cons (lead : Lead) (p : QueueMessage × Int)
    (rest : List (QueueMessage × Int)) :
    runEntries lead (p :: rest) = runEntries (processLead lead p.1 p.2) rest := rfl

theorem runEntries_append (lead : Lead) (xs ys : List (QueueMessage × Int)) :
    runEntries lead (xs ++ ys) = runEntries (runEntries lead xs) ys := by
  unfold runEntries
  exact List.foldl_append _ _ _ _

theorem runEntries_maxMessages (entries : List (QueueMessage × Int)) :
    ∀ lead : Lead, (runEntries lead entries).maxMessages = lead.maxMessages := by
  induction entries with
  | nil => intro lead; rfl
  | cons p rest ih =>
    intro lead
    rw [runEntries_cons, ih, processLead_maxMessages]

theorem runEntries_count_mono (entries : List (QueueMessage × Int)) :
    ∀ lead : Lead, lead.messageCount ≤ (runEntries lead entries).messageCount := by
  induction entries with
  | nil => intro lead; exact le_refl _
  | cons p rest ih =>
    intro lead
    rw [runEntries_cons]
    exact le_trans (processLead_count_mono lead p.1 p.2) (ih _)

theorem runEntries_count_cap (entries : List (QueueMessage × Int)) :
    ∀ (lead : Lead) (M : Int), lead.messageCount ≤ M →
      (∀ p ∈ entries, p.1.messageNumber ≤ M) →
      (runEntries lead entries).messageCount ≤ M := by
  induction entries with
  | nil => intro lead M hc _; exact hc
  | cons p rest ih =>
    intro lead M hc hm
    rw [runEntries_cons]
    exact ih _ M (processLead_count_cap lead p.1 p.2 M hc (hm p (List.mem_cons_self p rest)))
      (fun q hq => hm q (List.mem_cons_of_mem _ hq))

/- ------------------------------------------------------------------ -/
/- Claim theorems                                                      -/
/- ------------------------------------------------------------------ -/

/-- C1: in `processMessage`, on the expected-advance path, the
`archiveMessage` call is awaited inside the `prisma.$transaction` callback,
so the archive effect is issued strictly before the transaction commits —
the trace at a concrete freshly-admitted lead and its first entry is
`[send 1, dbUpdate, archive, txCommit]`, with `archive` in the strict
prefix before `txCommit`.  The claim (archive only after commit) is
therefore false of the code; the spec's ordering is the evident intent. -/
theorem processMessage_archives_inside_transaction :
    processMessageEvents (some sampleLead) sampleMsg 0 =
      [WorkerEvent.send 1, WorkerEvent.dbUpdate (advanceLead sampleLead 0),
       WorkerEvent.archive, WorkerEvent.txCommit] ∧
    WorkerEvent.archive ∈
      (processMessageEvents (some sampleLead) sampleMsg 0).takeWhile
        (fun e => !(e == WorkerEvent.txCommit)) := by
  constructor
  · rfl
  · decide

/-- C2: processing a queue entry whose `messageNumber` is exactly one ahead
of the lead's counter sends that message, sets `messageCount := c + 1` and
`lastSentAt := now`, and completes the lead (`nextScheduledFor := null`,
`status := COMPLETED`) exactly when `c + 1 = maxMessages`, otherwise points
it at tomorrow (`now + 24h`) with `status := ACTIVE`.  The hypotheses
`1 ≤ messageNumber ≤ maxMessages` are the queue-entry invariant of the data
model. -/
theorem worker_advance_updates_lead (lead : Lead) (msg : QueueMessage) (now : Int)
    (hmatch : lead.messageCount = msg.messageNumber - 1)
    (hm1 : 1 ≤ msg.messageNumber)
    (hmax : msg.messageNumber ≤ lead.maxMessages) :
    WorkerEvent.send msg.messageNumber ∈ processMessageEvents (some lead) msg now ∧
    (processLead lead msg now).messageCount = lead.messageCount + 1 ∧
    (processLead lead msg now).lastSentAt = some now ∧
    (lead.messageCount + 1 = lead.maxMessages →
      (processLead lead msg now).nextScheduledFor = none ∧
      (processLead lead msg now).status = LeadStatus.COMPLETED) ∧
    (lead.messageCount + 1 ≠ lead.maxMessages →
      (processLead lead msg now).nextScheduledFor = some (now + 86400000) ∧
      (processLead lead msg now).status = LeadStatus.ACTIVE) := by
  have hpl := processLead_of_match lead msg now hmatch
  refine ⟨?_, ?_, ?_, ?_, ?_⟩
  · simp [processMessageEvents, hmatch]
  · rw [hpl, advanceLead_messageCount]
  · rw [hpl]
    simp only [advanceLead]
    split <;> rfl
  · intro hdone
    rw [hpl]
    simp only [advanceLead]
    rw [if_pos (le_of_eq hdone.symm)]
    exact ⟨rfl, rfl⟩
  · intro hmore
    rw [hpl]
    simp only [advanceLead]
    rw [if_neg (by omega)]
    exact ⟨rfl, rfl⟩

/-- Witness for C2 at a concrete input: a lead with `maxMessages = 1` and
`messageCount = 0` processing its first entry goes straight to COMPLETED
with `nextScheduledFor = null` (the N = 1 boundary case of the claim). -/
theorem worker_advance_updates_lead_witness :
    WorkerEvent.send 1 ∈
      processMessageEvents (some { sampleLead with maxMessages := 1 }) sampleMsg 0 ∧
    (processLead { sampleLead with maxMessages := 1 } sampleMsg 0).messageCount = 1 ∧
    (processLead { sampleLead with maxMessages := 1 } sampleMsg 0).status =
      LeadStatus.COMPLETED ∧
    (processLead { sampleLead with maxMessages := 1 } sampleMsg 0).nextScheduledFor =
      none := by
  have h := worker_advance_updates_lead { sampleLead with maxMessages := 1 }
    sampleMsg 0 (by decide) (by decide) (by decide)
  have hdone := h.2.2.2.1 (by decide)
  exact ⟨h.1, h.2.1, hdone.2, hdone.1⟩

/-- C3: a counter mismatch (`messageCount ≠ messageNumber - 1`, covering
both the already-processed case `c ≥ m` and the out-of-order case
`c < m - 1`) only archives: the trace is `[archive, txCommit]` with no send
and no update, and the lead row is unchanged; moreover processing is
idempotent on the same entry — a second invocation after any first one is a
no-op on the lead row. -/
theorem worker_entry_idempotent :
    (∀ (lead : Lead) (msg : QueueMessage) (now : Int),
        lead.messageCount ≠ msg.messageNumber - 1 →
        processMessageEvents (some lead) msg now =
          [WorkerEvent.archive, WorkerEvent.txCommit] ∧
        processLead lead msg now = lead) ∧
    (∀ (lead : Lead) (msg : QueueMessage) (now now2 : Int),
        processLead (processLead lead msg now) msg now2 =
          processLead lead msg now) := by
  constructor
  · intro lead msg now h
    constructor
    · simp [processMessageEvents, h]
    · exact processLead_of_mismatch lead msg now h
  · intro lead msg now now2
    by_cases h : lead.messageCount = msg.messageNumber - 1
    · apply processLead_of_mismatch
      rw [processLead_of_match lead msg now h, advanceLead_messageCount]
      omega
    · rw [processLead_of_mismatch lead msg now h]
      exact processLead_of_mismatch lead msg now2 h

/-- Witness for C3 at a concrete input: a lead with `messageCount = 5`
receiving a stale entry with `messageNumber = 3` (the `c ≥ m` retry case)
archives with an otherwise empty trace and an unchanged row. -/
theorem worker_entry_idempotent_witness :
    processMessageEvents (some { sampleLead with messageCount := 5 })
      { sampleMsg with messageNumber := 3 } 0 =
      [WorkerEvent.archive, WorkerEvent.txCommit] ∧
    processLead { sampleLead with messageCount := 5 }
      { sampleMsg with messageNumber := 3 } 0 =
      { sampleLead with messageCount := 5 } :=
  worker_entry_idempotent.1 { sampleLead with messageCount := 5 }
    { sampleMsg with messageNumber := 3 } 0 (by decide)

/-- C10: a successful worker advance rewrites only the drip-progress fields;
`id`, `name`, `email`, `phone`, `notes`, `maxMessages` and `createdAt` are
unchanged by `processMessage`. -/
theorem worker_advance_frame (lead : Lead) (msg : QueueMessage) (now : Int)
    (hmatch : lead.messageCount = msg.messageNumber - 1) :
    (processLead lead msg now).id = lead.id ∧
    (processLead lead msg now).name = lead.name ∧
    (processLead lead msg now).email = lead.email ∧
    (processLead lead msg now).phone = lead.phone ∧
    (processLead lead msg now).notes = lead.notes ∧
    (processLead lead msg now).maxMessages = lead.maxMessages ∧
    (processLead lead msg now).createdAt = lead.createdAt := by
  rw [processLead_of_match lead msg now hmatch]
  simp only [advanceLead]
  split <;> exact ⟨rfl, rfl, rfl, rfl, rfl, rfl, rfl⟩

/-- Witness for C10 at a concrete input: advancing `sampleLead` on its first
entry keeps the identity and payload fields. -/
theorem worker_advance_frame_witness :
    (processLead sampleLead sampleMsg 0).email = sampleLead.email ∧
    (processLead sampleLead sampleMsg 0).maxMessages = sampleLead.maxMessages ∧
    (processLead sampleLead sampleMsg 0).createdAt = sampleLead.createdAt := by
  have h := worker_advance_frame sampleLead sampleMsg 0 (by decide)
  exact ⟨h.2.2.1, h.2.2.2.2.2.1, h.2.2.2.2.2.2⟩

/-- C4: starting from a lead as created by the admission endpoint
(`message_count = 0`), over any sequence of worker steps whose entries obey
the queue-entry invariant `1 ≤ message_number ≤ max_messages`, the counter
is non-decreasing step by step and never exceeds `max_messages`. -/
theorem messageCount_monotone_bounded (input : LeadInput) (id : String)
    (nowMs : Int) (entries : List (QueueMessage × Int))
    (hvalid : ∀ p ∈ entries, 1 ≤ p.1.messageNumber ∧
      p.1.messageNumber ≤ (mkNewLead input id nowMs).maxMessages) :
    (∀ n : Nat,
      (runEntries (mkNewLead input id nowMs) (entries.take n)).messageCount ≤
      (runEntries (mkNewLead input id nowMs) (entries.take (n + 1))).messageCount) ∧
    (runEntries (mkNewLead input id nowMs) entries).messageCount ≤
      (mkNewLead input id nowMs).maxMessages := by
  constructor
  · intro n
    rw [List.take_succ, runEntries_append]
    exact runEntries_count_mono _ _
  · refine runEntries_count_cap entries _ (mkNewLead input id nowMs).maxMessages ?_ ?_
    · show (0 : Int) ≤ 5
      norm_num
    · exact fun p hp => (hvalid p hp).2

/-- Witness for C4 at a concrete input: a freshly created lead processing
its first two entries stays within its `maxMessages` bound. -/
theorem messageCount_monotone_bounded_witness :
    (runEntries (mkNewLead sampleInput "lead-1" 0)
      [(sampleMsg, 10), ({ sampleMsg with messageNumber := 2 }, 20)]).messageCount ≤
    (mkNewLead sampleInput "lead-1" 0).maxMessages :=
  (messageCount_monotone_bounded sampleInput "lead-1" 0
    [(sampleMsg, 10), ({ sampleMsg with messageNumber := 2 }, 20)] (by decide)).2

/-- The day scan with fuel, characterized: the first in-horizon offset whose
day has spare capacity, else the day just past the horizon. -/
theorem findNextAvailableDayAux_spec (used : Int → Nat) (dailyMax : Nat) :
    ∀ (fuel : Nat) (current : Int),
      findNextAvailableDayAux used dailyMax fuel current =
        match (List.range fuel).find?
            (fun (i : Nat) => decide (used (current + (i : Int)) < dailyMax)) with
        | some i => current + (i : Int)
        | none => current + (fuel : Int) := by
  intro fuel
  induction fuel with
  | zero =>
    intro current
    simp [findNextAvailableDayAux]
  | succ fuel ih =>
    intro current
    rw [List.range_succ_eq_map]
    simp only [findNextAvailableDayAux]
    by_cases h : used current < dailyMax
    · rw [if_pos h, List.find?_cons_of_pos]
      · norm_num
      · simpa using h
    · rw [if_neg h, ih (current + 1), List.find?_cons_of_neg]
      swap
      · simpa using h
      rw [List.find?_map]
      have hfun : ((fun (i : Nat) => decide (used (current + (i : Int)) < dailyMax)) ∘ Nat.succ)
          = (fun (i : Nat) => decide (used (current + 1 + (i : Int)) < dailyMax)) := by
        funext i
        show decide (used (current + ((Nat.succ i : Nat) : Int)) < dailyMax)
          = decide (used (current + 1 + (i : Int)) < dailyMax)
        rw [show current + ((Nat.succ i : Nat) : Int) = current + 1 + (i : Int) by
          push_cast
          ring]
      rw [hfun]
      cases hf : (List.range fuel).find?
          (fun (i : Nat) => decide (used (current + 1 + (i : Int)) < dailyMax)) with
      | none =>
        show current + 1 + (fuel : Int) = _
        simp only [Option.map]
        push_cast
        ring
      | some i =>
        show current + 1 + (i : Int) = _
        simp only [Option.map]
        push_cast
        ring

/-- C5 (amended): the scheduler's day search returns the first day
`D ≥ startDate` within the 30-day horizon with `used D < DAILY_MAX`
(`specFirstAvailableDay` states exactly that via the first match in the
scanned range), and when every day of the horizon is full it returns
`startDate + 30` — the day *after* the last scanned day; in particular with
`DAILY_MAX = 0` the search from preferred day `P` yields `P + 30`. -/
theorem findNextAvailableDay_first_available :
    (∀ (used : Int → Nat) (dailyMax : Nat) (startDate : Int),
        findNextAvailableDay used dailyMax startDate =
          specFirstAvailableDay used dailyMax startDate) ∧
    (∀ (used : Int → Nat) (startDate : Int),
        findNextAvailableDay used 0 startDate = startDate + 30) := by
  have hmain : ∀ (used : Int → Nat) (dailyMax : Nat) (startDate : Int),
      findNextAvailableDay used dailyMax startDate =
        specFirstAvailableDay used dailyMax startDate := by
    intro used dailyMax startDate
    unfold findNextAvailableDay specFirstAvailableDay
    exact findNextAvailableDayAux_spec used dailyMax 30 startDate
  refine ⟨hmain, ?_⟩
  intro used startDate
  rw [hmain]
  unfold specFirstAvailableDay
  have hnone : (List.range 30).find?
      (fun (i : Nat) => decide (used (startDate + (i : Int)) < 0)) = none :=
    List.find?_eq_none.mpr (fun x hx => by simp)
  rw [hnone]

/-- C5 counterexample: with `DAILY_MAX = 0` (every day full) and preferred
day 0, the code returns day 30, not the last day of the horizon
`0 + 30 - 1 = 29` asserted by the claim. -/
theorem findNextAvailableDay_overflow_counterexample :
    findNextAvailableDay (fun _ => 0) 0 0 = 30 ∧
    ¬ findNextAvailableDay (fun _ => 0) 0 0 = 0 + 30 - 1 := by
  decide

/-- C6 (amended): the janitor's drop list contains exactly the day-queues —
both plain and `test-` prefixed — for the six dates `today - 1` through
`today - 6`; dates `today - 7` and older are never dropped. -/
theorem janitor_drops_exactly_past_six_days :
    ∀ (today : Int) (q : Bool × Int),
      q ∈ cleanupOldQueues today ↔ today - 6 ≤ q.2 ∧ q.2 ≤ today - 1 := by
  intro today q
  obtain ⟨b, d⟩ := q
  simp only [cleanupOldQueues, List.mem_flatten, List.mem_map]
  constructor
  · rintro ⟨l, ⟨i, hi, rfl⟩, hmem⟩
    rw [List.mem_range'_1] at hi
    simp only [List.mem_cons, List.not_mem_nil, or_false, Prod.mk.injEq] at hmem
    rcases hmem with ⟨_, hd⟩ | ⟨_, hd⟩ <;>
      exact ⟨by omega, by omega⟩
  · rintro ⟨h1, h2⟩
    refine ⟨_, ⟨(today - d).toNat, ?_, rfl⟩, ?_⟩
    · rw [List.mem_range'_1]
      omega
    · have hd : today - (((today - d).toNat : Nat) : Int) = d := by omega
      rw [hd]
      cases b <;> simp

/-- Witness for C6 at a concrete input: on 2025-01-22 (day 20110) the
test-prefixed queue for 2025-01-17 (day 20105) is in the drop list. -/
theorem janitor_drops_witness :
    (true, (20105 : Int)) ∈ cleanupOldQueues 20110 :=
  (janitor_drops_exactly_past_six_days 20110 (true, 20105)).mpr (by decide)

/-- C6 counterexample: on 2025-01-22 (day 20110) the queue for 2025-01-15
(day 20103) is NOT dropped while the queue for 2025-01-16 (day 20104) IS
dropped — the exact opposite of the claim's concrete scenario. -/
theorem janitor_day_seven_counterexample :
    ¬ (false, (20103 : Int)) ∈ cleanupOldQueues 20110 ∧
    (false, (20104 : Int)) ∈ cleanupOldQueues 20110 := by
  decide

/-- C7: when the lead row was created and any queue operation during
scheduling then fails (`scheduleFailsAt = some k`), `POST` still answers
201 with the created lead: the scheduling failure is swallowed. -/
theorem schedule_failure_still_returns_created_lead
    (env : AdmissionEnv) (input : LeadInput)
    (hbody : env.body = Except.ok input)
    (hcoffee : hasCoffee input.notes = false)
    (hcreate : env.createError = none)
    (hfail : env.scheduleFailsAt.isSome = true) :
    (POSTrun env).1 = successResponse (mkNewLead input env.newId env.nowMs) ∧
    (POSTrun env).1.status = 201 ∧
    (POSTrun env).1.success = true ∧
    (POSTrun env).1.data =
      some (leadResponseData (mkNewLead input env.newId env.nowMs)) := by
  have h1 : (POSTrun env).1 = successResponse (mkNewLead input env.newId env.nowMs) := by
    unfold POSTrun
    rw [hbody]
    simp only [hcoffee, hcreate, Bool.false_eq_true, if_false]
  refine ⟨h1, ?_, ?_, ?_⟩ <;> rw [h1] <;> rfl

/-- Witness for C7 at a concrete input: schedule fails at its very first
queue operation, yet the response is the 201 success. -/
theorem schedule_failure_witness :
    (POSTrun
      { body := Except.ok sampleInput, isTest := true, createError := none
        newId := "lead-1", nowMs := 0, today := 20110, used := fun _ => 0
        dailyMax := 100, scheduleFailsAt := some 0 }).1.status = 201 ∧
    (POSTrun
      { body := Except.ok sampleInput, isTest := true, createError := none
        newId := "lead-1", nowMs := 0, today := 20110, used := fun _ => 0
        dailyMax := 100, scheduleFailsAt := some 0 }).1.success = true := by
  have h := schedule_failure_still_returns_created_lead
    { body := Except.ok sampleInput, isTest := true, createError := none
      newId := "lead-1", nowMs := 0, today := 20110, used := fun _ => 0
      dailyMax := 100, scheduleFailsAt := some 0 }
    sampleInput rfl rfl rfl rfl
  exact ⟨h.2.1, h.2.2.1⟩

/-- C8: when `prisma.lead.create` fails with a unique-constraint error on
email or phone, `POST` surfaces the conflict (HTTP 422, `success: false`,
an "already in use" message) and performs no scheduling: the only effect
issued is the failed row creation — no queue is created and no message is
enqueued. -/
theorem duplicate_key_conflict_no_scheduling
    (env : AdmissionEnv) (input : LeadInput) (e : String)
    (hbody : env.body = Except.ok input)
    (hcoffee : hasCoffee input.notes = false)
    (hcreate : env.createError = some e)
    (huniq : jsIncludes e "Unique constraint" = true)
    (hfield : jsIncludes e "email" = true ∨ jsIncludes e "phone" = true) :
    (POSTrun env).1.status = 422 ∧
    (POSTrun env).1.success = false ∧
    ((POSTrun env).1.message = "The email address is already in use." ∨
     (POSTrun env).1.message = "The phone number is already in use") ∧
    (POSTrun env).2 = [AdmissionEffect.dbCreate] ∧
    (∀ eff ∈ (POSTrun env).2,
      (∀ q, eff ≠ AdmissionEffect.queueCreate q) ∧
      (∀ q m, eff ≠ AdmissionEffect.enqueue q m)) := by
  have hrun : POSTrun env = (handleDBError e, [AdmissionEffect.dbCreate]) := by
    unfold POSTrun
    rw [hbody]
    simp only [hcoffee, hcreate, Bool.false_eq_true, if_false]
  rw [hrun]
  refine ⟨rfl, rfl, ?_, rfl, ?_⟩
  · unfold handleDBError
    by_cases he : jsIncludes e "email" = true
    · left
      simp [he, huniq]
    · right
      rcases hfield with h | h
      · exact absurd h he
      · simp [he, h, huniq]
  · intro eff hmem
    rw [List.mem_singleton] at hmem
    subst hmem
    exact ⟨fun q hq => AdmissionEffect.noConfusion hq,
           fun q m hq => AdmissionEffect.noConfusion hq⟩

/-- Witness for C8 at a concrete input: a Prisma-style unique-constraint
message on the email field yields the 422 conflict and the bare
`dbCreate` effect list. -/
theorem duplicate_key_conflict_witness :
    (POSTrun
      { body := Except.ok sampleInput, isTest := false
        createError := some "Unique constraint failed on the fields: (email)"
        newId := "lead-1", nowMs := 0, today := 20110, used := fun _ => 0
        dailyMax := 100, scheduleFailsAt := none }).1.status = 422 ∧
    (POSTrun
      { body := Except.ok sampleInput, isTest := false
        createError := some "Unique constraint failed on the fields: (email)"
        newId := "lead-1", nowMs := 0, today := 20110, used := fun _ => 0
        dailyMax := 100, scheduleFailsAt := none }).2 =
      [AdmissionEffect.dbCreate] := by
  have h := duplicate_key_conflict_no_scheduling
    { body := Except.ok sampleInput, isTest := false
      createError := some "Unique constraint failed on the fields: (email)"
      newId := "lead-1", nowMs := 0, today := 20110, used := fun _ => 0
      dailyMax := 100, scheduleFailsAt := none }
    sampleInput "Unique constraint failed on the fields: (email)"
    rfl rfl rfl (by decide) (Or.inl (by decide))
  exact ⟨h.1, h.2.2.2.1⟩

/-- C9: the row `POST` hands to `prisma.lead.create` always carries the
hard-coded drip fields `maxMessages = 5`, `messageCount = 0` and
`status = ACTIVE`, whatever the validated request fields were (and zod
strips every unknown key, so no request field can influence them). -/
theorem admission_hardcodes_drip_fields :
    ∀ (input : LeadInput) (id : String) (nowMs : Int),
      (mkNewLead input id nowMs).maxMessages = 5 ∧
      (mkNewLead input id nowMs).messageCount = 0 ∧
      (mkNewLead input id nowMs).status = LeadStatus.ACTIVE :=
  fun _ _ _ => ⟨rfl, rfl, rfl⟩

end Hyperdrip
